import Mathlib

/-!
Verification development for the Wavefront OBJ loader of nitrix/render
(src/obj.go), as a shallow embedding in Lean 4.

Modelling choices, mirrored from the Go source:
* A file is modelled by the list of lines its `bufio.Scanner` yields.
* Go `float64` coordinates are modelled as exact rationals; the model of
  `strconv.ParseFloat` covers the decimal literal forms (sign, digits,
  fraction, exponent) and is exact on them.  The inputs appearing in the
  claims ("0", "1", small decimals) are exactly representable.
* Go `int` is modelled as `Int` (the claims only involve small indices).
* Go runtime panics (out-of-range slice indexing or slicing) are modelled
  by an explicit `Res.panic` outcome, distinct from a returned `error`.
* `strings.Split(line, sep)` for the one-character separators " " and "/"
  is `goSplit`, a structurally recursive character-level split with the
  same semantics (in particular it yields `[""]` on the empty string and
  keeps empty fields between adjacent separators).
* The in-place empty-token removal loops of obj.go mutate the slice while
  ranging over it; `removeEmptyLoop` reproduces the Go semantics exactly
  (shared backing array, stale tail elements, and the slice-bounds panic
  when `parts[k+1:]` is taken with `k + 1 > len(parts)`).
-/

/-- Go struct Vertex3: three float64 components, modelled as rationals. -/
structure Vertex3 where
  X : ℚ := 0
  Y : ℚ := 0
  Z : ℚ := 0
  deriving DecidableEq, Repr

/-- Go struct Vertex2: two float64 components, modelled as rationals. -/
structure Vertex2 where
  X : ℚ := 0
  Y : ℚ := 0
  deriving DecidableEq, Repr

/-- Go struct Face: three resolved vertices, textures and normals
(the Go `[3]Vertex3` / `[3]Vertex2` arrays become triples). -/
structure Face where
  Vertices : Vertex3 × Vertex3 × Vertex3
  Textures : Vertex2 × Vertex2 × Vertex2
  Normals : Vertex3 × Vertex3 × Vertex3
  deriving DecidableEq, Repr

/-- Go struct Obj: the faces plus the three transient index lists. -/
structure Obj where
  Faces : List Face := []
  vertices : List Vertex3 := []
  textures : List Vertex2 := []
  normals : List Vertex3 := []
  deriving DecidableEq, Repr

/-- Which coordinate a float error message names (x, y or z). -/
inductive Coord where
  | x | y | z
  deriving DecidableEq, Repr

/-- Which directive kind an error message names. -/
inductive DirKind where
  | vertex | vertexNormal | vertexTexture
  deriving DecidableEq, Repr

/-- The distinct `errors.New(fmt.Sprintf(...))` sites of obj.go, with the
data interpolated into each message. -/
inductive ObjError where
  | insufficientFace (lineNumber : Nat)
  | insufficientVertex (lineNumber : Nat)
  | insufficientNormal (lineNumber : Nat)
  | insufficientTexture (lineNumber : Nat)
  | invalidFloat (coord : Coord) (kind : DirKind) (lineNumber : Nat)
  | atoiError (field : String)
  | unresolvedVertex (id : Int) (lineNumber : Nat)
  | unresolvedNormal (id : Int) (lineNumber : Nat)
  | unresolvedTexture (id : Int) (lineNumber : Nat)
  deriving DecidableEq, Repr

/-- Outcome of running a piece of the Go code: a normal value, a returned
`error`, or a runtime panic (out-of-range indexing / slicing). -/
inductive Res (α : Type) where
  | ok (a : α)
  | err (e : ObjError)
  | panic
  deriving DecidableEq, Repr

/-- Sequencing: returned errors and panics both abort. -/
def Res.bind {α β : Type} : Res α → (α → Res β) → Res β
  | .ok a, f => f a
  | .err e, _ => .err e
  | .panic, _ => .panic

/-- Character-level split on a single-character separator, the semantics
of Go `strings.Split` for the separators " " and "/" used by obj.go:
the empty string yields one empty field, adjacent separators yield empty
fields, the result is never the empty list. -/
def splitChar (sep : Char) : List Char → List (List Char)
  | [] => [[]]
  | c :: rest =>
    let r := splitChar sep rest
    if c = sep then [] :: r
    else
      match r with
      | [] => [[c]]
      | g :: gs => (c :: g) :: gs

/-- Go `strings.Split(s, sep)` for a one-character `sep`. -/
def goSplit (s : String) (sep : Char) : List String :=
  (splitChar sep s.toList).map (fun g => String.mk g)

/-- Go `xs[i]` on a slice: the element, or a runtime panic when out of range. -/
def idxStr (xs : List String) (i : Nat) : Res String :=
  match xs[i]? with
  | some s => .ok s
  | none => .panic

/-- Numeric value of a digit character. -/
def digitVal (c : Char) : Nat := c.toNat - 48

/-- Value of a digit string, most significant first. -/
def natOfDigits (cs : List Char) : Nat := cs.foldl (fun a c => a * 10 + digitVal c) 0

/-- All characters are decimal digits. -/
def allDigits (cs : List Char) : Bool := cs.all (fun c => c.isDigit)

/-- Model of `strconv.Atoi` (decimal syntax: optional sign, then digits).
Modelled with unbounded `Int`; the 64-bit range error of Go is out of
scope for the claims, which use small indices. -/
def atoi (s : String) : Option Int :=
  let p : Bool × List Char := match s.toList with
    | '+' :: r => (false, r)
    | '-' :: r => (true, r)
    | r => (false, r)
  if p.2 = [] then none
  else if allDigits p.2 then
    let n : Int := Int.ofNat (natOfDigits p.2)
    some (if p.1 then -n else n)
  else none

/-- The signed rational `num / den` (built with `mkRat`, which is
kernel-computable, unlike the field operations of `ℚ`). -/
def decValue (neg : Bool) (num den : Nat) : ℚ :=
  mkRat (if neg then -(num : Int) else (num : Int)) den

/-- Exponent part of a float literal: optional sign, then digits; scales
the numerator or the denominator by the matching power of ten. -/
def parseExp (neg : Bool) (num den : Nat) (r : List Char) : Option ℚ :=
  let p : Bool × List Char := match r with
    | '+' :: t => (false, t)
    | '-' :: t => (true, t)
    | t => (false, t)
  if p.2 = [] then none
  else if allDigits p.2 then
    let e := natOfDigits p.2
    some (if p.1 then decValue neg num (den * 10 ^ e) else decValue neg (num * 10 ^ e) den)
  else none

/-- Model of `strconv.ParseFloat(s, 64)` on decimal literal forms:
optional sign, integer digits and/or a fraction, optional exponent.
Exact rational value (no float64 rounding; exact on the claims' inputs). -/
def parseFloat (s : String) : Option ℚ :=
  let p : Bool × List Char := match s.toList with
    | '+' :: r => (false, r)
    | '-' :: r => (true, r)
    | r => (false, r)
  let ipr : List Char × List Char := p.2.span (fun c => c.isDigit)
  let fpr : List Char × List Char := match ipr.2 with
    | '.' :: r => r.span (fun c => c.isDigit)
    | _ => ([], ipr.2)
  if ipr.1 = [] ∧ (ipr.2 = fpr.2 ∨ fpr.1 = []) then none
  else
    let fl := fpr.1.length
    let num := natOfDigits ipr.1 * 10 ^ fl + natOfDigits fpr.1
    let den := 10 ^ fl
    match fpr.2 with
    | [] => some (decValue p.1 num den)
    | 'e' :: r => parseExp p.1 num den r
    | 'E' :: r => parseExp p.1 num den r
    | _ => none

/-- Wrap `parseFloat` as the Go call sites do: a parse failure becomes the
`invalid float ... coordinate` error for the given coordinate/directive. -/
def parseFloatR (s : String) (c : Coord) (k : DirKind) (lineNumber : Nat) : Res ℚ :=
  match parseFloat s with
  | some q => .ok q
  | none => .err (.invalidFloat c k lineNumber)

/-- One pass of the Go empty-token removal loop
`for k, v := range parts { if v == "" { parts = append(parts[:k], parts[k+1:]...) } }`.
`arr` is the backing array (length fixed), `L` the current slice length,
`k` the range index (which runs over the original length, reading the
mutated backing array).  Removing shifts `arr[k+1:L]` down one slot and
leaves `arr[L-1:]` stale; `parts[k+1:]` panics when `k + 1 > L`. -/
def removeEmptyLoop : Nat → List String → Nat → Nat → Res (List String)
  | 0, arr, L, _ => .ok (arr.take L)
  | fuel + 1, arr, L, k =>
    match arr[k]? with
    | none => .ok (arr.take L)
    | some v =>
      if v = "" then
        if k + 1 ≤ L then
          removeEmptyLoop fuel
            (arr.take k ++ (arr.drop (k + 1)).take (L - 1 - k) ++ arr.drop (L - 1))
            (L - 1) (k + 1)
        else .panic
      else removeEmptyLoop fuel arr L (k + 1)

/-- The Go empty-token removal loop run over a freshly split token list
(length equals capacity, range bound is the original length). -/
def removeEmpty (parts : List String) : Res (List String) :=
  removeEmptyLoop parts.length parts parts.length 0

/-- obj.go resolveVertexId: only the upper bound is checked; then
`obj.vertices[id-1]` is indexed, which panics when `id < 1`. -/
def resolveVertexId (obj : Obj) (id : Int) (lineNumber : Nat) : Res Vertex3 :=
  if id > (obj.vertices.length : Int) then .err (.unresolvedVertex id lineNumber)
  else if id - 1 < 0 then .panic
  else
    match obj.vertices[(id - 1).toNat]? with
    | some v => .ok v
    | none => .panic

/-- obj.go resolveVertexNormalId: same shape over the normals list. -/
def resolveVertexNormalId (obj : Obj) (id : Int) (lineNumber : Nat) : Res Vertex3 :=
  if id > (obj.normals.length : Int) then .err (.unresolvedNormal id lineNumber)
  else if id - 1 < 0 then .panic
  else
    match obj.normals[(id - 1).toNat]? with
    | some v => .ok v
    | none => .panic

/-- obj.go resolveVertexTextureId: same shape over the textures list. -/
def resolveVertexTextureId (obj : Obj) (id : Int) (lineNumber : Nat) : Res Vertex2 :=
  if id > (obj.textures.length : Int) then .err (.unresolvedTexture id lineNumber)
  else if id - 1 < 0 then .panic
  else
    match obj.textures[(id - 1).toNat]? with
    | some v => .ok v
    | none => .panic

/-- Wrap `atoi` as the Go face parser does: `strconv.Atoi` failure is
returned as the error itself. -/
def atoiR (s : String) : Res Int :=
  match atoi s with
  | some i => .ok i
  | none => .err (.atoiError s)

/-- One vertex group of a face line, exactly as each of the three inlined
blocks of obj.go parseFaceLine runs: split the group on "/", Atoi the
sub-fields 0, 1, 2 (indexing panics when a sub-field is missing), then
resolve the three ids against the current lists. -/
def parseGroup (obj : Obj) (g : String) (lineNumber : Nat) :
    Res (Vertex3 × Vertex2 × Vertex3) :=
  let args := goSplit g '/'
  (idxStr args 0).bind fun s0 =>
  (atoiR s0).bind fun vid =>
  (idxStr args 1).bind fun s1 =>
  (atoiR s1).bind fun tid =>
  (idxStr args 2).bind fun s2 =>
  (atoiR s2).bind fun nid =>
  (resolveVertexId obj vid lineNumber).bind fun v =>
  (resolveVertexTextureId obj tid lineNumber).bind fun t =>
  (resolveVertexNormalId obj nid lineNumber).bind fun nrm =>
  .ok (v, t, nrm)

/-- obj.go parseFaceLine: split on spaces, run the (buggy) empty-token
removal loop, require at least 4 tokens, process the first three vertex
groups in order, and append the assembled Face. -/
def parseFaceLine (obj : Obj) (line : String) (lineNumber : Nat) : Res Obj :=
  (removeEmpty (goSplit line ' ')).bind fun parts =>
  if parts.length < 4 then .err (.insufficientFace lineNumber)
  else
    (idxStr parts 1).bind fun g1 =>
    (parseGroup obj g1 lineNumber).bind fun r1 =>
    (idxStr parts 2).bind fun g2 =>
    (parseGroup obj g2 lineNumber).bind fun r2 =>
    (idxStr parts 3).bind fun g3 =>
    (parseGroup obj g3 lineNumber).bind fun r3 =>
    .ok { obj with Faces := obj.Faces ++
      [⟨(r1.1, r2.1, r3.1), (r1.2.1, r2.2.1, r3.2.1), (r1.2.2, r2.2.2, r3.2.2)⟩] }

/-- obj.go parseVertexLine: note the token-count check happens on the raw
split, BEFORE the empty-token removal, then tokens 1..3 are indexed. -/
def parseVertexLine (obj : Obj) (line : String) (lineNumber : Nat) : Res Obj :=
  let parts0 := goSplit line ' '
  if parts0.length < 4 then .err (.insufficientVertex lineNumber)
  else
    (removeEmpty parts0).bind fun parts =>
    (idxStr parts 1).bind fun s1 =>
    (parseFloatR s1 Coord.x DirKind.vertex lineNumber).bind fun x =>
    (idxStr parts 2).bind fun s2 =>
    (parseFloatR s2 Coord.y DirKind.vertex lineNumber).bind fun y =>
    (idxStr parts 3).bind fun s3 =>
    (parseFloatR s3 Coord.z DirKind.vertex lineNumber).bind fun z =>
    .ok { obj with vertices := obj.vertices ++ [⟨x, y, z⟩] }

/-- obj.go parseVertexNormalLine: identical shape over the normals list. -/
def parseVertexNormalLine (obj : Obj) (line : String) (lineNumber : Nat) : Res Obj :=
  let parts0 := goSplit line ' '
  if parts0.length < 4 then .err (.insufficientNormal lineNumber)
  else
    (removeEmpty parts0).bind fun parts =>
    (idxStr parts 1).bind fun s1 =>
    (parseFloatR s1 Coord.x DirKind.vertexNormal lineNumber).bind fun x =>
    (idxStr parts 2).bind fun s2 =>
    (parseFloatR s2 Coord.y DirKind.vertexNormal lineNumber).bind fun y =>
    (idxStr parts 3).bind fun s3 =>
    (parseFloatR s3 Coord.z DirKind.vertexNormal lineNumber).bind fun z =>
    .ok { obj with normals := obj.normals ++ [⟨x, y, z⟩] }

/-- obj.go parseVertexTextureLine: two coordinates, minimum 3 raw tokens. -/
def parseVertexTextureLine (obj : Obj) (line : String) (lineNumber : Nat) : Res Obj :=
  let parts0 := goSplit line ' '
  if parts0.length < 3 then .err (.insufficientTexture lineNumber)
  else
    (removeEmpty parts0).bind fun parts =>
    (idxStr parts 1).bind fun s1 =>
    (parseFloatR s1 Coord.x DirKind.vertexTexture lineNumber).bind fun x =>
    (idxStr parts 2).bind fun s2 =>
    (parseFloatR s2 Coord.y DirKind.vertexTexture lineNumber).bind fun y =>
    .ok { obj with textures := obj.textures ++ [⟨x, y⟩] }

/-- First token of the raw single-space split (`strings.Split` never
returns an empty list, so this is exactly the Go `parts[0]`). -/
def headTok (line : String) : String := (goSplit line ' ').headI

/-- One iteration of the scanner loop in loadObjFromFile: skip the empty
line, otherwise switch on the raw first token; unmatched tokens fall
through the switch with no effect. -/
def processLine (obj : Obj) (line : String) (lineNumber : Nat) : Res Obj :=
  if line = "" then .ok obj
  else
    let t := headTok line
    if t = "v" then parseVertexLine obj line lineNumber
    else if t = "vn" then parseVertexNormalLine obj line lineNumber
    else if t = "vt" then parseVertexTextureLine obj line lineNumber
    else if t = "f" then parseFaceLine obj line lineNumber
    else .ok obj

/-- The scanner loop: `lineNumber` is incremented for every scanned line
(including blank and ignored ones); the first error or panic aborts. -/
def loadLines : List String → Obj → Nat → Res Obj
  | [], obj, _ => .ok obj
  | l :: ls, obj, n =>
    match processLine obj l (n + 1) with
    | .ok obj2 => loadLines ls obj2 (n + 1)
    | .err e => .err e
    | .panic => .panic

/-- obj.go loadObjFromFile, after `os.Open` succeeds: run the scanner
loop from an empty Obj, then clear the three transient lists.  The file
is modelled by its list of scanned lines. -/
def loadObjFromFile (lines : List String) : Res Obj :=
  (loadLines lines {} 0).bind fun obj =>
  .ok { obj with vertices := [], normals := [], textures := [] }


/-! ## Validity of OBJ input, as accepted by this implementation -/

/-- The float token parses (`strconv.ParseFloat` succeeds). -/
def goodFloatTok (s : String) : Bool := (parseFloat s).isSome

/-- A well-formed `v` or `vn` line: single spacing (no empty tokens), at
least four tokens, and tokens 1..3 are float literals. -/
def goodV (line : String) : Bool :=
  let ts := goSplit line ' '
  ts.all (fun t => decide (t ≠ "")) && decide (4 ≤ ts.length) &&
    goodFloatTok (ts.getD 1 ("")) && goodFloatTok (ts.getD 2 ("")) &&
    goodFloatTok (ts.getD 3 (""))

/-- A well-formed `vt` line: single spacing, at least three tokens, and
tokens 1..2 are float literals. -/
def goodVT (line : String) : Bool :=
  let ts := goSplit line ' '
  ts.all (fun t => decide (t ≠ "")) && decide (3 ≤ ts.length) &&
    goodFloatTok (ts.getD 1 ("")) && goodFloatTok (ts.getD 2 (""))

/-- An index sub-field that is an integer literal within `[1, len]`. -/
def goodIdx (len : Nat) (s : String) : Bool :=
  match atoi s with
  | some i => decide (1 ≤ i ∧ i ≤ (len : Int))
  | none => false

/-- A full `v/vt/vn` triplet whose three indices are in range for the
current list lengths `nv`, `nt`, `nn`. -/
def goodGroup (nv nt nn : Nat) (g : String) : Bool :=
  let args := goSplit g '/'
  decide (3 ≤ args.length) && goodIdx nv (args.getD 0 ("")) &&
    goodIdx nt (args.getD 1 ("")) && goodIdx nn (args.getD 2 (""))

/-- A well-formed `f` line for current list lengths `nv`, `nt`, `nn`:
single spacing, at least four tokens, and tokens 1..3 are full in-range
triplets. -/
def goodF (nv nt nn : Nat) (line : String) : Bool :=
  let ts := goSplit line ' '
  ts.all (fun t => decide (t ≠ "")) && decide (4 ≤ ts.length) &&
    goodGroup nv nt nn (ts.getD 1 ("")) && goodGroup nv nt nn (ts.getD 2 ("")) &&
    goodGroup nv nt nn (ts.getD 3 (""))

/-- Valid OBJ input relative to the list lengths accumulated so far:
every line is blank, an unrecognized directive, or a well-formed
directive whose face indices are within `[1, current length]`;
the counts track the accumulation line by line. -/
def validFrom (nv nt nn : Nat) : List String → Bool
  | [] => true
  | l :: ls =>
    if l = "" then validFrom nv nt nn ls
    else
      let t := headTok l
      if t = "v" then goodV l && validFrom (nv + 1) nt nn ls
      else if t = "vn" then goodV l && validFrom nv nt (nn + 1) ls
      else if t = "vt" then goodVT l && validFrom nv (nt + 1) nn ls
      else if t = "f" then goodF nv nt nn l && validFrom nv nt nn ls
      else validFrom nv nt nn ls

/-- Number of lines the dispatcher classifies as face lines. -/
def countFaceLines (lines : List String) : Nat :=
  lines.countP (fun l => decide (headTok l = "f"))

/-- A line the dispatcher ignores: blank, or an unrecognized first token. -/
def ignoredLine (l : String) : Prop :=
  l = "" ∨ (headTok l ≠ "v" ∧ headTok l ≠ "vn" ∧ headTok l ≠ "vt" ∧ headTok l ≠ "f")

instance (l : String) : Decidable (ignoredLine l) := by
  unfold ignoredLine; infer_instance

/-- A concrete valid input: geometry lines, a blank line, a comment,
and two distinct face lines. -/
def sampleValidInput : List String :=
  [("v 0 0 0"), ("v 1 0 0"), ("vt 0 0"), ("vn 0 0 1"), (""), ("# note"),
   ("f 1/1/1 1/1/1 1/1/1"), ("f 2/1/1 2/1/1 2/1/1")]

/-! ## Helper lemmas -/

/-- The removal loop is the identity (and never panics) on a token list
without empty tokens. -/
theorem removeEmptyLoop_no_empty (fuel : Nat) : ∀ (arr : List String) (L k : Nat),
    (∀ x ∈ arr, x ≠ "") → removeEmptyLoop fuel arr L k = .ok (arr.take L) := by
  induction fuel with
  | zero => intro arr L k _; rfl
  | succ fuel ih =>
    intro arr L k h
    unfold removeEmptyLoop
    split
    · rfl
    · next v harr =>
        have hv : v ≠ "" := h v (List.mem_iff_getElem?.mpr ⟨k, harr⟩)
        rw [if_neg hv]
        exact ih arr L (k + 1) h

/-- `removeEmpty` is the identity on a token list without empty tokens. -/
theorem removeEmpty_no_empty (parts : List String)
    (h : ∀ x ∈ parts, x ≠ "") : removeEmpty parts = .ok parts := by
  unfold removeEmpty
  rw [removeEmptyLoop_no_empty parts.length parts parts.length 0 h, List.take_length]

/-- In-range indexing never panics and yields the `getD` value. -/
theorem idxStr_ok (xs : List String) (i : Nat) (h : i < xs.length) :
    idxStr xs i = .ok (xs.getD i ("")) := by
  unfold idxStr
  rw [List.getElem?_eq_getElem h, List.getD_eq_getElem?_getD, List.getElem?_eq_getElem h]
  rfl

/-- An in-bounds id resolves to a vertex. -/
theorem resolveVertexId_ok (obj : Obj) (id : Int) (n : Nat)
    (h1 : 1 ≤ id) (h2 : id ≤ (obj.vertices.length : Int)) :
    ∃ v, resolveVertexId obj id n = .ok v := by
  unfold resolveVertexId
  rw [if_neg (by omega), if_neg (by omega)]
  have hlt : (id - 1).toNat < obj.vertices.length := by omega
  rw [List.getElem?_eq_getElem hlt]
  exact ⟨_, rfl⟩

/-- An in-bounds id resolves to a normal. -/
theorem resolveVertexNormalId_ok (obj : Obj) (id : Int) (n : Nat)
    (h1 : 1 ≤ id) (h2 : id ≤ (obj.normals.length : Int)) :
    ∃ v, resolveVertexNormalId obj id n = .ok v := by
  unfold resolveVertexNormalId
  rw [if_neg (by omega), if_neg (by omega)]
  have hlt : (id - 1).toNat < obj.normals.length := by omega
  rw [List.getElem?_eq_getElem hlt]
  exact ⟨_, rfl⟩

/-- An in-bounds id resolves to a texture coordinate. -/
theorem resolveVertexTextureId_ok (obj : Obj) (id : Int) (n : Nat)
    (h1 : 1 ≤ id) (h2 : id ≤ (obj.textures.length : Int)) :
    ∃ v, resolveVertexTextureId obj id n = .ok v := by
  unfold resolveVertexTextureId
  rw [if_neg (by omega), if_neg (by omega)]
  have hlt : (id - 1).toNat < obj.textures.length := by omega
  rw [List.getElem?_eq_getElem hlt]
  exact ⟨_, rfl⟩

/-- Unfolding lemma: bind on a normal value. -/
theorem Res.bind_ok {α β : Type} (a : α) (f : α → Res β) : (Res.ok a).bind f = f a := rfl

/-- Unpack a `goodIdx` check into the parsed integer and its bounds. -/
theorem goodIdx_spec (len : Nat) (s : String) (h : goodIdx len s = true) :
    ∃ i, atoi s = some i ∧ 1 ≤ i ∧ i ≤ (len : Int) := by
  unfold goodIdx at h
  split at h
  · next i hi => exact ⟨i, hi, decide_eq_true_eq.mp h⟩
  · exact absurd h (by simp)

/-- A well-formed `v` line appends exactly one vertex and succeeds. -/
theorem parseVertexLine_good (obj : Obj) (line : String) (n : Nat) (h : goodV line = true) :
    ∃ w, parseVertexLine obj line n = .ok { obj with vertices := obj.vertices ++ [w] } := by
  simp only [goodV, Bool.and_eq_true, List.all_eq_true, decide_eq_true_eq, goodFloatTok] at h
  obtain ⟨⟨⟨⟨hne, hlen⟩, h1⟩, h2⟩, h3⟩ := h
  obtain ⟨x, hx⟩ := Option.isSome_iff_exists.mp h1
  obtain ⟨y, hy⟩ := Option.isSome_iff_exists.mp h2
  obtain ⟨z, hz⟩ := Option.isSome_iff_exists.mp h3
  have hnot : ¬ ((goSplit line ' ').length < 4) := by omega
  have e1 := idxStr_ok (goSplit line ' ') 1 (by omega)
  have e2 := idxStr_ok (goSplit line ' ') 2 (by omega)
  have e3 := idxStr_ok (goSplit line ' ') 3 (by omega)
  refine ⟨⟨x, y, z⟩, ?_⟩
  simp only [parseVertexLine, if_neg hnot, removeEmpty_no_empty _ hne, Res.bind_ok,
    e1, e2, e3, parseFloatR, hx, hy, hz]

/-- A well-formed `vn` line appends exactly one normal and succeeds. -/
theorem parseVertexNormalLine_good (obj : Obj) (line : String) (n : Nat) (h : goodV line = true) :
    ∃ w, parseVertexNormalLine obj line n = .ok { obj with normals := obj.normals ++ [w] } := by
  simp only [goodV, Bool.and_eq_true, List.all_eq_true, decide_eq_true_eq, goodFloatTok] at h
  obtain ⟨⟨⟨⟨hne, hlen⟩, h1⟩, h2⟩, h3⟩ := h
  obtain ⟨x, hx⟩ := Option.isSome_iff_exists.mp h1
  obtain ⟨y, hy⟩ := Option.isSome_iff_exists.mp h2
  obtain ⟨z, hz⟩ := Option.isSome_iff_exists.mp h3
  have hnot : ¬ ((goSplit line ' ').length < 4) := by omega
  have e1 := idxStr_ok (goSplit line ' ') 1 (by omega)
  have e2 := idxStr_ok (goSplit line ' ') 2 (by omega)
  have e3 := idxStr_ok (goSplit line ' ') 3 (by omega)
  refine ⟨⟨x, y, z⟩, ?_⟩
  simp only [parseVertexNormalLine, if_neg hnot, removeEmpty_no_empty _ hne, Res.bind_ok,
    e1, e2, e3, parseFloatR, hx, hy, hz]

/-- A well-formed `vt` line appends exactly one texture coordinate. -/
theorem parseVertexTextureLine_good (obj : Obj) (line : String) (n : Nat) (h : goodVT line = true) :
    ∃ w, parseVertexTextureLine obj line n = .ok { obj with textures := obj.textures ++ [w] } := by
  simp only [goodVT, Bool.and_eq_true, List.all_eq_true, decide_eq_true_eq, goodFloatTok] at h
  obtain ⟨⟨⟨hne, hlen⟩, h1⟩, h2⟩ := h
  obtain ⟨x, hx⟩ := Option.isSome_iff_exists.mp h1
  obtain ⟨y, hy⟩ := Option.isSome_iff_exists.mp h2
  have hnot : ¬ ((goSplit line ' ').length < 3) := by omega
  have e1 := idxStr_ok (goSplit line ' ') 1 (by omega)
  have e2 := idxStr_ok (goSplit line ' ') 2 (by omega)
  refine ⟨⟨x, y⟩, ?_⟩
  simp only [parseVertexTextureLine, if_neg hnot, removeEmpty_no_empty _ hne, Res.bind_ok,
    e1, e2, parseFloatR, hx, hy]

/-- A full in-range triplet is parsed and resolved without error. -/
theorem parseGroup_good (obj : Obj) (g : String) (n : Nat)
    (h : goodGroup obj.vertices.length obj.textures.length obj.normals.length g = true) :
    ∃ r, parseGroup obj g n = .ok r := by
  simp only [goodGroup, Bool.and_eq_true, decide_eq_true_eq] at h
  obtain ⟨⟨⟨hlen, hv⟩, ht⟩, hn⟩ := h
  obtain ⟨vi, hvi, hv1, hv2⟩ := goodIdx_spec _ _ hv
  obtain ⟨ti, hti, ht1, ht2⟩ := goodIdx_spec _ _ ht
  obtain ⟨ni, hni, hn1, hn2⟩ := goodIdx_spec _ _ hn
  obtain ⟨rv, hrv⟩ := resolveVertexId_ok obj vi n hv1 hv2
  obtain ⟨rt, hrt⟩ := resolveVertexTextureId_ok obj ti n ht1 ht2
  obtain ⟨rn, hrn⟩ := resolveVertexNormalId_ok obj ni n hn1 hn2
  have e0 := idxStr_ok (goSplit g '/') 0 (by omega)
  have e1 := idxStr_ok (goSplit g '/') 1 (by omega)
  have e2 := idxStr_ok (goSplit g '/') 2 (by omega)
  refine ⟨(rv, rt, rn), ?_⟩
  simp only [parseGroup, e0, e1, e2, Res.bind_ok, atoiR, hvi, hti, hni, hrv, hrt, hrn]

/-- A well-formed `f` line appends exactly one face and succeeds. -/
theorem parseFaceLine_good (obj : Obj) (line : String) (n : Nat)
    (h : goodF obj.vertices.length obj.textures.length obj.normals.length line = true) :
    ∃ fc, parseFaceLine obj line n = .ok { obj with Faces := obj.Faces ++ [fc] } := by
  simp only [goodF, Bool.and_eq_true, List.all_eq_true, decide_eq_true_eq] at h
  obtain ⟨⟨⟨⟨hne, hlen⟩, hg1⟩, hg2⟩, hg3⟩ := h
  obtain ⟨r1, hr1⟩ := parseGroup_good obj _ n hg1
  obtain ⟨r2, hr2⟩ := parseGroup_good obj _ n hg2
  obtain ⟨r3, hr3⟩ := parseGroup_good obj _ n hg3
  have hnot : ¬ ((goSplit line ' ').length < 4) := by omega
  have e1 := idxStr_ok (goSplit line ' ') 1 (by omega)
  have e2 := idxStr_ok (goSplit line ' ') 2 (by omega)
  have e3 := idxStr_ok (goSplit line ' ') 3 (by omega)
  refine ⟨⟨(r1.1, r2.1, r3.1), (r1.2.1, r2.2.1, r3.2.1), (r1.2.2, r2.2.2, r3.2.2)⟩, ?_⟩
  simp only [parseFaceLine, removeEmpty_no_empty _ hne, Res.bind_ok, if_neg hnot,
    e1, e2, e3, hr1, hr2, hr3]

/-- The dispatcher ignores blank lines and unrecognized first tokens,
returning the state unchanged with no error. -/
theorem processLine_ignored (obj : Obj) (l : String) (n : Nat) (h : ignoredLine l) :
    processLine obj l n = .ok obj := by
  rcases h with h | ⟨h1, h2, h3, h4⟩
  · simp [processLine, h]
  · by_cases hl : l = ""
    · simp [processLine, hl]
    · simp [processLine, hl, h1, h2, h3, h4]

/-- Unfolding lemma: one scanner iteration as a bind. -/
theorem loadLines_cons (x : String) (t : List String) (obj : Obj) (n : Nat) :
    loadLines (x :: t) obj n =
      (processLine obj x (n + 1)).bind (fun o => loadLines t o (n + 1)) := by
  cases hp : processLine obj x (n + 1) <;> simp only [loadLines, hp, Res.bind]

/-- Face-line count of a cons cell. -/
theorem countFaceLines_cons (l : String) (ls : List String) :
    countFaceLines (l :: ls) = countFaceLines ls + (if headTok l = "f" then 1 else 0) := by
  simp [countFaceLines, List.countP_cons]

/-- Dispatch: a line whose first raw token is "v" goes to the vertex parser. -/
theorem processLine_eq_v (obj : Obj) (l : String) (n : Nat)
    (hl : l ≠ "") (ht : headTok l = "v") :
    processLine obj l n = parseVertexLine obj l n := by
  simp [processLine, hl, ht]

/-- Dispatch: a line whose first raw token is "vn" goes to the normal parser. -/
theorem processLine_eq_vn (obj : Obj) (l : String) (n : Nat)
    (hl : l ≠ "") (ht : headTok l = "vn") :
    processLine obj l n = parseVertexNormalLine obj l n := by
  simp [processLine, hl, ht]

/-- Dispatch: a line whose first raw token is "vt" goes to the texture parser. -/
theorem processLine_eq_vt (obj : Obj) (l : String) (n : Nat)
    (hl : l ≠ "") (ht : headTok l = "vt") :
    processLine obj l n = parseVertexTextureLine obj l n := by
  simp [processLine, hl, ht]

/-- Dispatch: a line whose first raw token is "f" goes to the face parser. -/
theorem processLine_eq_f (obj : Obj) (l : String) (n : Nat)
    (hl : l ≠ "") (ht : headTok l = "f") :
    processLine obj l n = parseFaceLine obj l n := by
  simp [processLine, hl, ht]

/-- Valid input processed from a matching state succeeds and produces one
face per face line, on top of the faces already accumulated. -/
theorem loadLines_valid (ls : List String) : ∀ (obj : Obj) (n : Nat),
    validFrom obj.vertices.length obj.textures.length obj.normals.length ls = true →
    ∃ m, loadLines ls obj n = .ok m ∧
      m.Faces.length = obj.Faces.length + countFaceLines ls := by
  induction ls with
  | nil =>
    intro obj n _
    exact ⟨obj, rfl, by simp [countFaceLines]⟩
  | cons l ls ih =>
    intro obj n h
    unfold validFrom at h
    rw [loadLines_cons, countFaceLines_cons]
    by_cases hl : l = ""
    · rw [if_pos hl] at h
      obtain ⟨m, hm, hc⟩ := ih obj (n + 1) h
      rw [processLine_ignored obj l (n + 1) (Or.inl hl), Res.bind_ok, hm]
      have hne : headTok l ≠ "f" := by rw [hl]; decide
      exact ⟨m, rfl, by rw [hc, if_neg hne]; omega⟩
    · rw [if_neg hl] at h
      simp only at h
      by_cases hv : headTok l = "v"
      · rw [if_pos hv, Bool.and_eq_true] at h
        obtain ⟨w, hw⟩ := parseVertexLine_good obj l (n + 1) h.1
        obtain ⟨m, hm, hc⟩ := ih { obj with vertices := obj.vertices ++ [w] } (n + 1)
          (by simpa using h.2)
        rw [processLine_eq_v obj l (n + 1) hl hv, hw, Res.bind_ok, hm]
        have hne : headTok l ≠ "f" := by rw [hv]; decide
        exact ⟨m, rfl, by rw [hc, if_neg hne]; simp⟩
      · rw [if_neg hv] at h
        by_cases hvn : headTok l = "vn"
        · rw [if_pos hvn, Bool.and_eq_true] at h
          obtain ⟨w, hw⟩ := parseVertexNormalLine_good obj l (n + 1) h.1
          obtain ⟨m, hm, hc⟩ := ih { obj with normals := obj.normals ++ [w] } (n + 1)
            (by simpa using h.2)
          rw [processLine_eq_vn obj l (n + 1) hl hvn, hw, Res.bind_ok, hm]
          have hne : headTok l ≠ "f" := by rw [hvn]; decide
          exact ⟨m, rfl, by rw [hc, if_neg hne]; simp⟩
        · rw [if_neg hvn] at h
          by_cases hvt : headTok l = "vt"
          · rw [if_pos hvt, Bool.and_eq_true] at h
            obtain ⟨w, hw⟩ := parseVertexTextureLine_good obj l (n + 1) h.1
            obtain ⟨m, hm, hc⟩ := ih { obj with textures := obj.textures ++ [w] } (n + 1)
              (by simpa using h.2)
            rw [processLine_eq_vt obj l (n + 1) hl hvt, hw, Res.bind_ok, hm]
            have hne : headTok l ≠ "f" := by rw [hvt]; decide
            exact ⟨m, rfl, by rw [hc, if_neg hne]; simp⟩
          · rw [if_neg hvt] at h
            by_cases hf : headTok l = "f"
            · rw [if_pos hf, Bool.and_eq_true] at h
              obtain ⟨fc, hfc⟩ := parseFaceLine_good obj l (n + 1) h.1
              obtain ⟨m, hm, hc⟩ := ih { obj with Faces := obj.Faces ++ [fc] } (n + 1)
                (by simpa using h.2)
              rw [processLine_eq_f obj l (n + 1) hl hf, hfc, Res.bind_ok, hm]
              refine ⟨m, rfl, ?_⟩
              rw [hc, if_pos hf]
              simp only [List.length_append, List.length_cons, List.length_nil]
              omega
            · rw [if_neg hf] at h
              obtain ⟨m, hm, hc⟩ := ih obj (n + 1) h
              rw [processLine_ignored obj l (n + 1) (Or.inr ⟨hv, hvn, hvt, hf⟩), Res.bind_ok, hm]
              exact ⟨m, rfl, by rw [hc, if_neg hf]; omega⟩

/-- Splitting the scanner loop at a list append: the suffix runs from the
state and line offset the prefix produced. -/
theorem loadLines_append (xs ys : List String) : ∀ (obj : Obj) (n : Nat),
    loadLines (xs ++ ys) obj n =
      (loadLines xs obj n).bind (fun o => loadLines ys o (n + xs.length)) := by
  induction xs with
  | nil => intro obj n; simp [loadLines, Res.bind]
  | cons x xs ih =>
    intro obj n
    rw [List.cons_append, loadLines_cons, loadLines_cons]
    cases processLine obj x (n + 1) with
    | ok o =>
      rw [Res.bind_ok, Res.bind_ok, ih o (n + 1)]
      have harith : n + 1 + xs.length = n + (x :: xs).length := by
        rw [List.length_cons]; omega
      rw [harith]
    | err e => rfl
    | panic => rfl

/-- A prefix of ignored lines changes nothing but the line offset. -/
theorem loadLines_ignored_lead (pre : List String) :
    ∀ (rest : List String) (obj : Obj) (n : Nat), (∀ l ∈ pre, ignoredLine l) →
    loadLines (pre ++ rest) obj n = loadLines rest obj (n + pre.length) := by
  induction pre with
  | nil => intro rest obj n _; simp
  | cons p pre ih =>
    intro rest obj n h
    rw [List.cons_append, loadLines_cons,
      processLine_ignored obj p (n + 1) (h p (by simp)), Res.bind_ok,
      ih rest obj (n + 1) (fun l hl => h l (by simp [hl]))]
    have harith : n + 1 + pre.length = n + (p :: pre).length := by
      rw [List.length_cons]; omega
    rw [harith]

/-- Successful bind factors through a successful first step. -/
theorem Res.bind_eq_ok {α β : Type} {r : Res α} {f : α → Res β} {b : β}
    (h : r.bind f = .ok b) : ∃ a, r = .ok a ∧ f a = .ok b := by
  cases r with
  | ok a => exact ⟨a, rfl, h⟩
  | err e => simp [Res.bind] at h
  | panic => simp [Res.bind] at h

/-- A successful parseVertexLine does not touch the Faces sequence. -/
theorem parseVertexLine_ok_shape (obj : Obj) (line : String) (n : Nat) (o : Obj)
    (h : parseVertexLine obj line n = .ok o) : o.Faces = obj.Faces := by
  simp only [parseVertexLine] at h
  split at h
  · simp at h
  · obtain ⟨parts, _, h⟩ := Res.bind_eq_ok h
    obtain ⟨s1, _, h⟩ := Res.bind_eq_ok h
    obtain ⟨x, _, h⟩ := Res.bind_eq_ok h
    obtain ⟨s2, _, h⟩ := Res.bind_eq_ok h
    obtain ⟨y, _, h⟩ := Res.bind_eq_ok h
    obtain ⟨s3, _, h⟩ := Res.bind_eq_ok h
    obtain ⟨z, _, h⟩ := Res.bind_eq_ok h
    injection h with h
    subst h
    rfl

/-- A successful parseVertexNormalLine does not touch the Faces sequence. -/
theorem parseVertexNormalLine_ok_shape (obj : Obj) (line : String) (n : Nat) (o : Obj)
    (h : parseVertexNormalLine obj line n = .ok o) : o.Faces = obj.Faces := by
  simp only [parseVertexNormalLine] at h
  split at h
  · simp at h
  · obtain ⟨parts, _, h⟩ := Res.bind_eq_ok h
    obtain ⟨s1, _, h⟩ := Res.bind_eq_ok h
    obtain ⟨x, _, h⟩ := Res.bind_eq_ok h
    obtain ⟨s2, _, h⟩ := Res.bind_eq_ok h
    obtain ⟨y, _, h⟩ := Res.bind_eq_ok h
    obtain ⟨s3, _, h⟩ := Res.bind_eq_ok h
    obtain ⟨z, _, h⟩ := Res.bind_eq_ok h
    injection h with h
    subst h
    rfl

/-- A successful parseVertexTextureLine does not touch the Faces sequence. -/
theorem parseVertexTextureLine_ok_shape (obj : Obj) (line : String) (n : Nat) (o : Obj)
    (h : parseVertexTextureLine obj line n = .ok o) : o.Faces = obj.Faces := by
  simp only [parseVertexTextureLine] at h
  split at h
  · simp at h
  · obtain ⟨parts, _, h⟩ := Res.bind_eq_ok h
    obtain ⟨s1, _, h⟩ := Res.bind_eq_ok h
    obtain ⟨x, _, h⟩ := Res.bind_eq_ok h
    obtain ⟨s2, _, h⟩ := Res.bind_eq_ok h
    obtain ⟨y, _, h⟩ := Res.bind_eq_ok h
    injection h with h
    subst h
    rfl

/-- A successful parseFaceLine appends exactly one face (and nothing else). -/
theorem parseFaceLine_ok_shape (obj : Obj) (line : String) (n : Nat) (o : Obj)
    (h : parseFaceLine obj line n = .ok o) :
    ∃ fc, o = { obj with Faces := obj.Faces ++ [fc] } := by
  simp only [parseFaceLine] at h
  obtain ⟨parts, _, h⟩ := Res.bind_eq_ok h
  split at h
  · simp at h
  · obtain ⟨g1, _, h⟩ := Res.bind_eq_ok h
    obtain ⟨r1, _, h⟩ := Res.bind_eq_ok h
    obtain ⟨g2, _, h⟩ := Res.bind_eq_ok h
    obtain ⟨r2, _, h⟩ := Res.bind_eq_ok h
    obtain ⟨g3, _, h⟩ := Res.bind_eq_ok h
    obtain ⟨r3, _, h⟩ := Res.bind_eq_ok h
    injection h with h
    subst h
    exact ⟨_, rfl⟩

/-- One successful dispatcher step either keeps Faces or appends one face. -/
theorem processLine_faces (obj : Obj) (line : String) (n : Nat) (o : Obj)
    (h : processLine obj line n = .ok o) :
    o.Faces = obj.Faces ∨ ∃ fc, o.Faces = obj.Faces ++ [fc] := by
  simp only [processLine] at h
  split at h
  · injection h with h
    subst h
    exact Or.inl rfl
  · split at h
    · exact Or.inl (parseVertexLine_ok_shape obj line n o h)
    · split at h
      · exact Or.inl (parseVertexNormalLine_ok_shape obj line n o h)
      · split at h
        · exact Or.inl (parseVertexTextureLine_ok_shape obj line n o h)
        · split at h
          · obtain ⟨fc, hfc⟩ := parseFaceLine_ok_shape obj line n o h
            exact Or.inr ⟨fc, by rw [hfc]⟩
          · injection h with h
            subst h
            exact Or.inl rfl

/-- Over a successful run the Faces sequence only grows at the back: the
final Faces extend the initial ones. -/
theorem loadLines_faces_mono (ls : List String) : ∀ (obj : Obj) (n : Nat) (m : Obj),
    loadLines ls obj n = .ok m → ∃ t, m.Faces = obj.Faces ++ t := by
  induction ls with
  | nil =>
    intro obj n m h
    simp only [loadLines] at h
    injection h with h
    subst h
    exact ⟨[], by simp⟩
  | cons l ls ih =>
    intro obj n m h
    rw [loadLines_cons] at h
    obtain ⟨o, ho, h⟩ := Res.bind_eq_ok h
    obtain ⟨t, ht⟩ := ih o (n + 1) m h
    rcases processLine_faces obj l (n + 1) o ho with hsame | ⟨fc, happ⟩
    · exact ⟨t, by rw [ht, hsame]⟩
    · exact ⟨fc :: t, by rw [ht, happ]; simp⟩

/-- Validity restricts to any input decomposition's left part. -/
theorem validFrom_append_left (xs : List String) : ∀ (ys : List String) (nv nt nn : Nat),
    validFrom nv nt nn (xs ++ ys) = true → validFrom nv nt nn xs = true := by
  induction xs with
  | nil => intro ys nv nt nn _; rfl
  | cons l xs ih =>
    intro ys nv nt nn h
    rw [List.cons_append] at h
    unfold validFrom at h ⊢
    by_cases hl : l = ""
    · rw [if_pos hl] at h ⊢
      exact ih ys nv nt nn h
    · rw [if_neg hl] at h ⊢
      simp only at h ⊢
      by_cases hv : headTok l = "v"
      · rw [if_pos hv, Bool.and_eq_true] at h ⊢
        exact ⟨h.1, ih ys (nv + 1) nt nn h.2⟩
      · rw [if_neg hv] at h ⊢
        by_cases hvn : headTok l = "vn"
        · rw [if_pos hvn, Bool.and_eq_true] at h ⊢
          exact ⟨h.1, ih ys nv nt (nn + 1) h.2⟩
        · rw [if_neg hvn] at h ⊢
          by_cases hvt : headTok l = "vt"
          · rw [if_pos hvt, Bool.and_eq_true] at h ⊢
            exact ⟨h.1, ih ys nv (nt + 1) nn h.2⟩
          · rw [if_neg hvt] at h ⊢
            by_cases hf : headTok l = "f"
            · rw [if_pos hf, Bool.and_eq_true] at h ⊢
              exact ⟨h.1, ih ys nv nt nn h.2⟩
            · rw [if_neg hf] at h ⊢
              exact ih ys nv nt nn h

/-! ## The claims -/

/-- C1: for every valid OBJ input — every line blank, unrecognized, or a
well-formed directive whose face lines are full v/vt/vn triplets
referencing only indices within [1, current length] of the lists
accumulated before them (`validFrom 0 0 0`) — loading succeeds, the
resulting Mesh has exactly one Face per face line, and the faces are in
input order: for every decomposition of the input around a face line
`fline` preceded by `pre`, processing `fline` in the state the prefix
produced appends exactly one face `fc`, and `fc` is the element of the
final Faces sequence at position `countFaceLines pre`, the number of
face lines before it. -/
theorem c1_valid_input_loads_all_faces (lines : List String)
    (h : validFrom 0 0 0 lines = true) :
    ∃ m, loadObjFromFile lines = .ok m ∧ m.Faces.length = countFaceLines lines ∧
      ∀ pre fline post, lines = pre ++ fline :: post → headTok fline = "f" →
        ∃ st st2 fc, loadLines pre {} 0 = .ok st ∧
          st.Faces.length = countFaceLines pre ∧
          processLine st fline (pre.length + 1) = .ok st2 ∧
          st2.Faces = st.Faces ++ [fc] ∧
          m.Faces[countFaceLines pre]? = some fc := by
  obtain ⟨m0, hm0, hc0⟩ := loadLines_valid lines {} 0 h
  refine ⟨{ m0 with vertices := [], normals := [], textures := [] }, ?_, ?_, ?_⟩
  · unfold loadObjFromFile
    rw [hm0, Res.bind_ok]
  · simpa using hc0
  · intro pre fline post hdec hf
    have hpre : validFrom 0 0 0 pre = true :=
      validFrom_append_left pre (fline :: post) 0 0 0 (hdec ▸ h)
    obtain ⟨st, hst, hstc⟩ := loadLines_valid pre {} 0 hpre
    rw [hdec] at hm0
    rw [loadLines_append pre (fline :: post) {} 0] at hm0
    simp only [hst, Res.bind_ok, Nat.zero_add] at hm0
    rw [loadLines_cons] at hm0
    obtain ⟨st2, hps, hrest⟩ := Res.bind_eq_ok hm0
    have hflne : fline ≠ "" := by
      intro hfe
      rw [hfe] at hf
      exact absurd hf (by decide)
    have hpf := hps
    rw [processLine_eq_f st fline (pre.length + 1) hflne hf] at hpf
    obtain ⟨fc, hshape⟩ := parseFaceLine_ok_shape st fline (pre.length + 1) st2 hpf
    obtain ⟨t, ht⟩ := loadLines_faces_mono post st2 (pre.length + 1) m0 hrest
    have hstc2 : st.Faces.length = countFaceLines pre := by simpa using hstc
    refine ⟨st, st2, fc, hst, hstc2, hps, by rw [hshape], ?_⟩
    rw [hshape] at ht
    simp only at ht
    show m0.Faces[countFaceLines pre]? = some fc
    rw [ht, ← hstc2, List.append_assoc,
      List.getElem?_append_right (Nat.le_refl st.Faces.length)]
    simp

/-- C1 witness: a concrete valid input with two distinct face lines. -/
theorem c1_valid_input_loads_all_faces_witness :
    validFrom 0 0 0 sampleValidInput = true ∧
    (∃ m, loadObjFromFile sampleValidInput = .ok m ∧
      m.Faces.length = countFaceLines sampleValidInput ∧
      ∀ pre fline post, sampleValidInput = pre ++ fline :: post → headTok fline = "f" →
        ∃ st st2 fc, loadLines pre {} 0 = .ok st ∧
          st.Faces.length = countFaceLines pre ∧
          processLine st fline (pre.length + 1) = .ok st2 ∧
          st2.Faces = st.Faces ++ [fc] ∧
          m.Faces[countFaceLines pre]? = some fc) :=
  ⟨by decide, c1_valid_input_loads_all_faces sampleValidInput (by decide)⟩

/-- C2 (code bug in src/obj.go): a face index sub-field of 0 passes
resolveVertexId's upper-bound-only check and the code then indexes
vertices[-1] — a runtime out-of-range panic, not the clean
UnresolvedReference error the spec requires. -/
theorem c2_zero_index_panics :
    resolveVertexId { vertices := [⟨0, 0, 0⟩] } 0 5 = .panic ∧
    loadObjFromFile [("v 0 0 0"), ("vt 0 0"), ("vn 0 0 1"), ("f 0/1/1 1/1/1 1/1/1")] =
      .panic :=
  ⟨by decide, by decide⟩

/-- C3: the ten-line example input loads successfully to a Mesh with
exactly one Face whose three positions are (0,0,0), (1,0,0), (0,1,0) in
that order (and whose transient lists are cleared). -/
theorem c3_example_single_triangle :
    loadObjFromFile [("v 0 0 0"), ("v 1 0 0"), ("v 0 1 0"), ("vt 0 0"), ("vt 1 0"),
      ("vt 0 1"), ("vn 0 0 1"), ("vn 0 0 1"), ("vn 0 0 1"), ("f 1/1/1 2/2/2 3/3/3")] =
    .ok { Faces := [⟨(⟨0, 0, 0⟩, ⟨1, 0, 0⟩, ⟨0, 1, 0⟩), (⟨0, 0⟩, ⟨1, 0⟩, ⟨0, 1⟩),
      (⟨0, 0, 1⟩, ⟨0, 0, 1⟩, ⟨0, 0, 1⟩)⟩] } := by decide

/-- C4 (code bug in src/obj.go): a face vertex group without all three
"/"-separated sub-fields (here "f 1 2 3", whose groups have one
sub-field) makes parseFaceLine index sub-field 1 past the end of the
split list — a runtime panic, not an error result. -/
theorem c4_missing_subfield_panics :
    parseFaceLine {} ("f 1 2 3") 1 = .panic ∧
    loadObjFromFile [("f 1 2 3")] = .panic :=
  ⟨by decide, by decide⟩

/-- C5 (code bug in src/obj.go): parseVertexLine checks the token count
on the RAW split before removing empty tokens, so "v  1 2" (double
space: four raw tokens, three after removal) passes the check and then
indexes token 3 out of range — a runtime panic, not the MalformedDirective
error, and the code does access a token position past the end. -/
theorem c5_short_vertex_line_panics :
    parseVertexLine {} ("v  1 2") 1 = .panic ∧
    loadObjFromFile [("v  1 2")] = .panic :=
  ⟨by decide, by decide⟩

/-- C6 counterexample: classification does NOT discard empty tokens.
A line with a leading space has raw first token "" and is silently
ignored although its first nonempty token is "v": no vertex is stored,
so a following face line referencing vertex 1 fails. -/
theorem c6_counterexample_leading_space :
    processLine {} (" v 0 0 0") 1 = .ok {} ∧
    loadObjFromFile [(" v 0 0 0"), ("vt 0 0"), ("vn 0 0 1"), ("f 1/1/1 1/1/1 1/1/1")] =
      .err (.unresolvedVertex 1 4) :=
  ⟨by decide, by decide⟩

/-- C6 amended: classification splits the line on single spaces and
inspects the FIRST RAW token, without discarding empty tokens:
"v"/"vn"/"vt"/"f" dispatch to their handlers, and any other first raw
token (including the empty token a leading space produces) is ignored
silently with no error and no state change. -/
theorem c6_classification_raw_first_token (obj : Obj) (line : String) (n : Nat)
    (hne : line ≠ "") :
    (headTok line = "v" → processLine obj line n = parseVertexLine obj line n) ∧
    (headTok line = "vn" → processLine obj line n = parseVertexNormalLine obj line n) ∧
    (headTok line = "vt" → processLine obj line n = parseVertexTextureLine obj line n) ∧
    (headTok line = "f" → processLine obj line n = parseFaceLine obj line n) ∧
    (headTok line ≠ "v" → headTok line ≠ "vn" → headTok line ≠ "vt" → headTok line ≠ "f" →
      processLine obj line n = .ok obj) :=
  ⟨processLine_eq_v obj line n hne, processLine_eq_vn obj line n hne,
   processLine_eq_vt obj line n hne, processLine_eq_f obj line n hne,
   fun h1 h2 h3 h4 => processLine_ignored obj line n (Or.inr ⟨h1, h2, h3, h4⟩)⟩

/-- C6 witness: the amended dispatch at a leading-space line. -/
theorem c6_classification_raw_first_token_witness :
    processLine {} (" vt 0 0") 2 = .ok {} :=
  (c6_classification_raw_first_token {} (" vt 0 0") 2 (by decide)).2.2.2.2
    (by decide) (by decide) (by decide) (by decide)

/-- C7: an index exceeding the current length of its referenced list is
rejected by the resolvers with the unresolved-reference error, for all
three lists; in particular a face line referencing vertices only
declared on later lines fails with UnresolvedReference on its own line
(no forward references). -/
theorem c7_out_of_range_index_unresolved :
    (∀ (obj : Obj) (id : Int) (n : Nat), id > (obj.vertices.length : Int) →
      resolveVertexId obj id n = .err (.unresolvedVertex id n)) ∧
    (∀ (obj : Obj) (id : Int) (n : Nat), id > (obj.textures.length : Int) →
      resolveVertexTextureId obj id n = .err (.unresolvedTexture id n)) ∧
    (∀ (obj : Obj) (id : Int) (n : Nat), id > (obj.normals.length : Int) →
      resolveVertexNormalId obj id n = .err (.unresolvedNormal id n)) ∧
    loadObjFromFile [("f 1/1/1 2/2/2 3/3/3"), ("v 0 0 0"), ("vt 0 0"), ("vn 0 0 1")] =
      .err (.unresolvedVertex 1 1) := by
  refine ⟨fun obj id n h => ?_, fun obj id n h => ?_, fun obj id n h => ?_, by decide⟩
  · unfold resolveVertexId
    rw [if_pos h]
  · unfold resolveVertexTextureId
    rw [if_pos h]
  · unfold resolveVertexNormalId
    rw [if_pos h]

/-- C7 witness: a concrete out-of-range resolution. -/
theorem c7_out_of_range_index_unresolved_witness :
    resolveVertexId {} 2 7 = .err (.unresolvedVertex 2 7) :=
  c7_out_of_range_index_unresolved.1 {} 2 7 (by decide)

/-- C8: fail-fast — when the lines before `bad` process cleanly to state
`st` and `bad` produces error `e` at its physical line number, the whole
load returns exactly `e`, whatever lines follow, and returns no Mesh
(the error constructor carries no Obj). -/
theorem c8_fail_fast (pre : List String) (bad : String) (suf : List String)
    (st : Obj) (e : ObjError)
    (hpre : loadLines pre {} 0 = .ok st)
    (hbad : processLine st bad (pre.length + 1) = .err e) :
    loadObjFromFile (pre ++ bad :: suf) = .err e := by
  unfold loadObjFromFile
  rw [loadLines_append, hpre, Res.bind_ok, loadLines_cons]
  simp only [Nat.zero_add]
  rw [hbad]
  rfl

/-- C8 witness: the malformed second line aborts the load; the face line
after it is never processed. -/
theorem c8_fail_fast_witness :
    loadObjFromFile (["v 0 0 0"] ++ ("v 1") :: [("f 1/1/1 1/1/1 1/1/1")]) =
      .err (.insufficientVertex 2) :=
  c8_fail_fast ["v 0 0 0"] ("v 1") [("f 1/1/1 1/1/1 1/1/1")]
    { vertices := [⟨0, 0, 0⟩] } (.insufficientVertex 2) (by decide) (by decide)

/-- C9: a blank line or a line with an unrecognized first token leaves
the entire Obj unchanged — same Faces, vertices, textures and normals —
and raises no error. -/
theorem c9_ignored_lines_no_effect (obj : Obj) (line : String) (n : Nat)
    (h : ignoredLine line) :
    processLine obj line n = .ok obj :=
  processLine_ignored obj line n h

/-- C9 witness: an unrecognized directive is a no-op. -/
theorem c9_ignored_lines_no_effect_witness :
    processLine {} ("mtllib scene.mtl") 3 = .ok {} :=
  c9_ignored_lines_no_effect {} ("mtllib scene.mtl") 3 (by decide)

/-- C10: the line counter counts every physical line, blank and ignored
lines included, so the error produced by a face line that follows `pre`
ignored lines reports physical position `pre.length + 1`. -/
theorem c10_physical_line_number (pre : List String)
    (h : ∀ l ∈ pre, ignoredLine l) (suf : List String) :
    loadObjFromFile (pre ++ ("f 1/1/1 2/2/2 3/3/3") :: suf) =
      .err (.unresolvedVertex 1 (pre.length + 1)) := by
  unfold loadObjFromFile
  rw [loadLines_ignored_lead pre _ {} 0 h, loadLines_cons]
  simp only [Nat.zero_add]
  have hstep : processLine {} ("f 1/1/1 2/2/2 3/3/3") (pre.length + 1) =
      .err (.unresolvedVertex 1 (pre.length + 1)) := rfl
  rw [hstep]
  rfl

/-- C10 witness: a blank line, a comment and an mtllib line precede the
failing face line; the error reports physical line 4. -/
theorem c10_physical_line_number_witness :
    loadObjFromFile ([(""), ("# comment"), ("mtllib scene.mtl")] ++
      ("f 1/1/1 2/2/2 3/3/3") :: []) = .err (.unresolvedVertex 1 4) :=
  c10_physical_line_number [(""), ("# comment"), ("mtllib scene.mtl")] (by decide) []
